import Mathlib

/-!
Verification of the `ExecutiveFeedbackSystem` contract (CLevel360_FHE).

The contract state and every externally callable operation are embedded as
pure Lean functions with explicit state passing.  A reverting call is
modelled by `Except.error`: by EVM semantics a revert leaves the chain state
exactly as it was, so an `Except.error` result means no state change.
Ciphertext handles (`euint32`) and 32-byte words are opaque to the contract
and are modelled as natural numbers.  The external FHE gateway primitives
`FHE.checkSignatures` (which reverts when the proof does not verify) and
`abi.decode` (which reverts on a malformed payload) are modelled as
function parameters `checkSig` and `decode`; `FHE.toBytes32` and
`FHE.asEuint32` are opaque injections modelled as the identity on handle
codes.
-/

namespace ExecutiveFeedbackSystem

/-- Ethereum addresses, modelled as natural numbers. -/
abbrev Address := Nat

/-- An `euint32` ciphertext handle, opaque to the contract. -/
abbrev Handle := Nat

/-- Model of `FHE.toBytes32`: the opaque injection from a handle to the
32-byte word sent to the coprocessor. -/
def toBytes32 (h : Handle) : Nat := h

/-- Model of `FHE.asEuint32`: the opaque injection wrapping a plaintext
value into a ciphertext handle. -/
def asEuint32 (x : Nat) : Handle := x

/-- `struct FeedbackCategory { euint32 encryptedScore; euint32 encryptedWeight; }` -/
structure FeedbackCategory where
  encryptedScore : Handle
  encryptedWeight : Handle

/-- `struct EncryptedFeedback` from the contract. -/
structure EncryptedFeedback where
  executive : Address
  reviewer : Address
  categories : Fin 5 → FeedbackCategory
  encryptedComments : Handle
  timestamp : Nat

/-- `struct LeadershipReport` from the contract. -/
structure LeadershipReport where
  encryptedAvgScores : Fin 5 → Handle
  encryptedOverallScore : Handle
  isAggregated : Bool

/-- Zero-initialised `EncryptedFeedback`, the Solidity mapping default. -/
def defaultFeedback : EncryptedFeedback :=
  { executive := 0, reviewer := 0, categories := fun _ => ⟨0, 0⟩,
    encryptedComments := 0, timestamp := 0 }

/-- Zero-initialised `LeadershipReport`, the Solidity mapping default. -/
def defaultReport : LeadershipReport :=
  { encryptedAvgScores := fun _ => 0, encryptedOverallScore := 0, isAggregated := false }

/-- The contract storage: `feedbackCount`, the `feedbacks` mapping keyed by
record id, the per-executive `reports` mapping, the two role mappings and
`feedbackPeriod`. -/
structure State where
  feedbackCount : Nat
  feedbacks : Nat → EncryptedFeedback
  reports : Address → LeadershipReport
  isExecutive : Address → Bool
  isReviewer : Address → Bool
  feedbackPeriod : Nat

/-- Revert reasons, one per `require` / modifier / external check. -/
inductive Err where
  | notExecutive
  | notReviewer
  | invalidExecutive
  | alreadyAggregated
  | insufficientFeedback
  | reportNotReady
  | invalidCategory
  | sigCheckFailed
  | decodeFailed
deriving DecidableEq

/-- Whether a call completed without reverting. -/
def isOk {α : Type} : Except Err α → Bool
  | Except.ok _ => true
  | Except.error _ => false

/-- `uint256 public constant MIN_REVIEWERS = 5;` -/
def MIN_REVIEWERS : Nat := 5

/-- The freshly deployed contract: all counters zero, all mappings at their
defaults, `feedbackPeriod = 30 days` in seconds. -/
def initialState : State :=
  { feedbackCount := 0, feedbacks := fun _ => defaultFeedback,
    reports := fun _ => defaultReport,
    isExecutive := fun _ => false, isReviewer := fun _ => false,
    feedbackPeriod := 2592000 }

/-- `registerExecutive()`: sets `isExecutive[msg.sender] = true`. -/
def registerExecutive (caller : Address) (s : State) : State :=
  { s with isExecutive := fun a => if a = caller then true else s.isExecutive a }

/-- `approveReviewer(address reviewer)`: sets `isReviewer[reviewer] = true`
(no access control in the source). -/
def approveReviewer (_caller reviewer : Address) (s : State) : State :=
  { s with isReviewer := fun a => if a = reviewer then true else s.isReviewer a }

/-- `setFeedbackPeriod(uint256 newPeriod)` (no access control in the source). -/
def setFeedbackPeriod (_caller : Address) (newPeriod : Nat) (s : State) : State :=
  { s with feedbackPeriod := newPeriod }

/-- `submitFeedback(executive, encryptedScores[5], encryptedWeights[5],
encryptedComments)`: guarded by `onlyReviewer` and
`require(isExecutive[executive])`; allocates `newId = ++feedbackCount` and
stores the record.  The returned number is the fresh record id, the value the
contract publishes in its `FeedbackSubmitted(newId, executive)` event. -/
def submitFeedback (caller executive : Address)
    (encryptedScores encryptedWeights : Fin 5 → Handle)
    (encryptedComments : Handle) (ts : Nat) (s : State) :
    Except Err (State × Nat) :=
  if s.isReviewer caller then
    if s.isExecutive executive then
      Except.ok
        ({ s with
            feedbackCount := s.feedbackCount + 1,
            feedbacks := fun i =>
              if i = s.feedbackCount + 1 then
                { executive := executive, reviewer := caller,
                  categories := fun j =>
                    { encryptedScore := encryptedScores j,
                      encryptedWeight := encryptedWeights j },
                  encryptedComments := encryptedComments, timestamp := ts }
              else s.feedbacks i },
         s.feedbackCount + 1)
    else Except.error Err.invalidExecutive
  else Except.error Err.notReviewer

/-- The record ids `1 .. feedbackCount` whose stored record targets
executive `e`, in increasing id order — the ids visited by the collection
loop of `requestAggregation`. -/
def execFeedbackIds (e : Address) (s : State) : List Nat :=
  (((List.range s.feedbackCount).map (fun k => k + 1)).filter
    (fun i => (s.feedbacks i).executive == e))

/-- `feedbackCountForExec`, the first counting loop of `requestAggregation`. -/
def feedbackCountFor (e : Address) (s : State) : Nat :=
  (execFeedbackIds e s).length

/-- The eleven 32-byte words pushed for one feedback record: the five
(score, weight) handle pairs in category order `j = 0 .. 4`, then the
comment handle — the inner loop body of `requestAggregation`. -/
def recordHandles (f : EncryptedFeedback) : List Nat :=
  [toBytes32 (f.categories 0).encryptedScore, toBytes32 (f.categories 0).encryptedWeight,
   toBytes32 (f.categories 1).encryptedScore, toBytes32 (f.categories 1).encryptedWeight,
   toBytes32 (f.categories 2).encryptedScore, toBytes32 (f.categories 2).encryptedWeight,
   toBytes32 (f.categories 3).encryptedScore, toBytes32 (f.categories 3).encryptedWeight,
   toBytes32 (f.categories 4).encryptedScore, toBytes32 (f.categories 4).encryptedWeight,
   toBytes32 f.encryptedComments]

/-- The `ciphertexts` array built by `requestAggregation`: for each of the
caller's records in id order, its eleven handles. -/
def collectCiphertexts (e : Address) (s : State) : List Nat :=
  (execFeedbackIds e s).flatMap (fun i => recordHandles (s.feedbacks i))

/-- `requestAggregation()`: guarded by `onlyExecutive`,
`require(!reports[msg.sender].isAggregated)` and
`require(feedbackCountForExec >= MIN_REVIEWERS)`; builds the ciphertext
array and hands it to `FHE.requestComputation` (external, fire-and-forget;
the returned request id is dropped by the source).  No contract storage is
written. -/
def requestAggregation (caller : Address) (s : State) :
    Except Err (State × List Nat) :=
  if s.isExecutive caller then
    if (s.reports caller).isAggregated then Except.error Err.alreadyAggregated
    else
      if feedbackCountFor caller s < MIN_REVIEWERS then
        Except.error Err.insufficientFeedback
      else Except.ok (s, collectCiphertexts caller s)
  else Except.error Err.notExecutive

/-- `aggregateFeedback(requestId, results, proof)`: public, no modifier.
`FHE.checkSignatures` (modelled by `checkSig`, reverting when false) runs
first, then `abi.decode(results, (uint32[5], uint32))` (modelled by
`decode`, reverting on `none`); then the source sets
`address executive = msg.sender` and overwrites `reports[executive]` with
the re-encrypted decoded values and `isAggregated = true`. -/
def aggregateFeedback (checkSig : Nat → Nat → Nat → Bool)
    (decode : Nat → Option ((Fin 5 → Nat) × Nat))
    (caller : Address) (requestId results proofBytes : Nat) (s : State) :
    Except Err State :=
  if checkSig requestId results proofBytes then
    match decode results with
    | some (avgScores, overallScore) =>
        Except.ok
          { s with reports := fun a =>
              if a = caller then
                { encryptedAvgScores := fun i => asEuint32 (avgScores i),
                  encryptedOverallScore := asEuint32 overallScore,
                  isAggregated := true }
              else s.reports a }
    | none => Except.error Err.decodeFailed
  else Except.error Err.sigCheckFailed

/-- `requestReportDecryption()`: guarded by `onlyExecutive` and
`require(reports[msg.sender].isAggregated)`; builds the six-handle array
(five category averages then the overall score) and hands it to
`FHE.requestDecryption`.  No contract storage is written. -/
def requestReportDecryption (caller : Address) (s : State) :
    Except Err (State × List Nat) :=
  if s.isExecutive caller then
    if (s.reports caller).isAggregated then
      Except.ok (s,
        [toBytes32 ((s.reports caller).encryptedAvgScores 0),
         toBytes32 ((s.reports caller).encryptedAvgScores 1),
         toBytes32 ((s.reports caller).encryptedAvgScores 2),
         toBytes32 ((s.reports caller).encryptedAvgScores 3),
         toBytes32 ((s.reports caller).encryptedAvgScores 4),
         toBytes32 (s.reports caller).encryptedOverallScore])
    else Except.error Err.reportNotReady
  else Except.error Err.notExecutive

/-- `decryptReport(requestId, cleartexts, proof)`: public, no modifier.
Runs `FHE.checkSignatures` then `abi.decode`, emits `ReportDecrypted` and
writes nothing. -/
def decryptReport (checkSig : Nat → Nat → Nat → Bool)
    (decode : Nat → Option ((Fin 5 → Nat) × Nat))
    (_caller : Address) (requestId cleartexts proofBytes : Nat) (s : State) :
    Except Err State :=
  if checkSig requestId cleartexts proofBytes then
    match decode cleartexts with
    | some _ => Except.ok s
    | none => Except.error Err.decodeFailed
  else Except.error Err.sigCheckFailed

/-- The in-bounds index used by `getEncryptedCategoryScore` once its
`require(category < 5)` gate has passed (for `category < 5` it is
`category` itself). -/
def catIndex (category : Nat) : Fin 5 := ⟨min category 4, by omega⟩

/-- `getEncryptedCategoryScore(executive, category)`: public view, no role
modifier; `require(category < 5)` then the array read.  The caller is a
parameter only to witness that the source never consults it. -/
def getEncryptedCategoryScore (_caller executive : Address) (category : Nat)
    (s : State) : Except Err Handle :=
  if h : category < 5 then
    Except.ok ((s.reports executive).encryptedAvgScores ⟨category, h⟩)
  else Except.error Err.invalidCategory

/-- `getEncryptedOverallScore(executive)`: public view, `onlyExecutive`. -/
def getEncryptedOverallScore (caller executive : Address) (s : State) :
    Except Err Handle :=
  if s.isExecutive caller then
    Except.ok (s.reports executive).encryptedOverallScore
  else Except.error Err.notExecutive

/-- Post-state of a `requestAggregation` call under revert semantics. -/
def runRequestAggregation (caller : Address) (s : State) : State :=
  match requestAggregation caller s with
  | Except.ok (t, _) => t
  | Except.error _ => s

/-- Post-state of a `requestReportDecryption` call under revert semantics. -/
def runRequestReportDecryption (caller : Address) (s : State) : State :=
  match requestReportDecryption caller s with
  | Except.ok (t, _) => t
  | Except.error _ => s

/-- Post-state of an `aggregateFeedback` call under revert semantics. -/
def runAggregateFeedback (checkSig : Nat → Nat → Nat → Bool)
    (decode : Nat → Option ((Fin 5 → Nat) × Nat))
    (caller : Address) (requestId results proofBytes : Nat) (s : State) : State :=
  match aggregateFeedback checkSig decode caller requestId results proofBytes s with
  | Except.ok t => t
  | Except.error _ => s

/-- Post-state of a `decryptReport` call under revert semantics. -/
def runDecryptReport (checkSig : Nat → Nat → Nat → Bool)
    (decode : Nat → Option ((Fin 5 → Nat) × Nat))
    (caller : Address) (requestId cleartexts proofBytes : Nat) (s : State) : State :=
  match decryptReport checkSig decode caller requestId cleartexts proofBytes s with
  | Except.ok t => t
  | Except.error _ => s

/-- One externally callable transaction of the contract. -/
inductive Op where
  | register (caller : Address)
  | approve (caller reviewer : Address)
  | submit (caller executive : Address) (scores weights : Fin 5 → Handle)
      (comments ts : Nat)
  | reqAgg (caller : Address)
  | aggCb (checkSig : Nat → Nat → Nat → Bool)
      (decode : Nat → Option ((Fin 5 → Nat) × Nat))
      (caller requestId results proofBytes : Nat)
  | reqDec (caller : Address)
  | decCb (checkSig : Nat → Nat → Nat → Bool)
      (decode : Nat → Option ((Fin 5 → Nat) × Nat))
      (caller requestId cleartexts proofBytes : Nat)
  | getCat (caller executive : Address) (category : Nat)
  | getOverall (caller executive : Address)
  | setPeriod (caller newPeriod : Nat)

/-- The state transition of one transaction; `Except.error` is a revert. -/
def applyOp : Op → State → Except Err State
  | Op.register c, s => Except.ok (registerExecutive c s)
  | Op.approve c r, s => Except.ok (approveReviewer c r s)
  | Op.submit c e sc w cm ts, s =>
      match submitFeedback c e sc w cm ts s with
      | Except.ok (t, _) => Except.ok t
      | Except.error err => Except.error err
  | Op.reqAgg c, s =>
      match requestAggregation c s with
      | Except.ok (t, _) => Except.ok t
      | Except.error err => Except.error err
  | Op.aggCb cs dec c rid res prf, s => aggregateFeedback cs dec c rid res prf s
  | Op.reqDec c, s =>
      match requestReportDecryption c s with
      | Except.ok (t, _) => Except.ok t
      | Except.error err => Except.error err
  | Op.decCb cs dec c rid clr prf, s => decryptReport cs dec c rid clr prf s
  | Op.getCat c e cat, s =>
      match getEncryptedCategoryScore c e cat s with
      | Except.ok _ => Except.ok s
      | Except.error err => Except.error err
  | Op.getOverall c e, s =>
      match getEncryptedOverallScore c e s with
      | Except.ok _ => Except.ok s
      | Except.error err => Except.error err
  | Op.setPeriod c p, s => Except.ok (setFeedbackPeriod c p s)

/-! Concrete test fixtures. -/

/-- A feedback record for executive 1 from reviewer `10 + i`, with distinct
handle codes per slot. -/
def demoFeedback (i : Nat) : EncryptedFeedback :=
  { executive := 1, reviewer := 10 + i,
    categories := fun j => { encryptedScore := 100 * i + j.val,
                             encryptedWeight := 200 * i + j.val },
    encryptedComments := 1000 + i, timestamp := i }

/-- A state reached after registering executive 1, approving reviewers
11–15 and five submissions targeting executive 1: the aggregation threshold
is exactly met and no report is aggregated yet. -/
def sReady : State :=
  { feedbackCount := 5,
    feedbacks := fun i => if 1 ≤ i ∧ i ≤ 5 then demoFeedback i else defaultFeedback,
    reports := fun _ => defaultReport,
    isExecutive := fun a => a == 1,
    isReviewer := fun a => 11 ≤ a && a ≤ 15,
    feedbackPeriod := 2592000 }

/-- `sReady` after a previously accepted aggregation callback invoked by
address 2: `reports[2]` is already aggregated. -/
def sAgg : State :=
  { sReady with
      reports := fun a =>
        if a = 2 then
          { encryptedAvgScores := fun _ => 40, encryptedOverallScore := 50,
            isAggregated := true }
        else defaultReport }

/-- A proof check that always accepts (a valid gateway signature). -/
def trivialSig : Nat → Nat → Nat → Bool := fun _ _ _ => true

/-- A proof check that always rejects (a forged or stale proof). -/
def falseSig : Nat → Nat → Nat → Bool := fun _ _ _ => false

/-- Concrete decoded average scores: 7 in every category. -/
def demoAvg : Fin 5 → Nat := fun _ => 7

/-- A payload decoder returning averages `demoAvg` and overall score 9. -/
def demoDecode : Nat → Option ((Fin 5 → Nat) × Nat) := fun _ => some (demoAvg, 9)

/-- The state after a second accepted aggregation callback (caller 2) hits
the already-aggregated state `sAgg`. -/
def afterSecondCb : State :=
  match aggregateFeedback trivialSig demoDecode 2 0 0 0 sAgg with
  | Except.ok t => t
  | Except.error _ => sAgg

/-- The state after the coprocessor gateway (address 2) delivers the
aggregation callback for executive 1's request on `sReady`. -/
def afterGatewayCb : State :=
  match aggregateFeedback trivialSig demoDecode 2 0 0 0 sReady with
  | Except.ok t => t
  | Except.error _ => sReady

/-- The post-state of executive 1's first successful aggregation request. -/
def afterReq1 : State := runRequestAggregation 1 sReady

/-- The ciphertext list issued by executive 1's aggregation request. -/
def ctsReady : List Nat := collectCiphertexts 1 sReady

/-! Theorems. -/

/-- Claim C5: `submitFeedback` succeeds exactly when the caller holds the
Reviewer role and the target holds the Executive role; on success it appends
one record under the fresh id `feedbackCount + 1` holding exactly the given
executive, caller, category handles, comment handle and timestamp, touching
no other storage, and yields that id; a failed precondition yields only an
authorization error (`notReviewer` / `invalidExecutive`); no condition is
placed on the ciphertext handle values. -/
theorem submitFeedback_rules (caller executive : Address)
    (scores weights : Fin 5 → Handle) (comments ts : Nat) (s : State) :
    (isOk (submitFeedback caller executive scores weights comments ts s) = true
       ↔ s.isReviewer caller = true ∧ s.isExecutive executive = true)
    ∧ (s.isReviewer caller = false ∨ s.isExecutive executive = false ∨
        submitFeedback caller executive scores weights comments ts s =
          Except.ok
            ({ s with
                feedbackCount := s.feedbackCount + 1,
                feedbacks := fun i =>
                  if i = s.feedbackCount + 1 then
                    { executive := executive, reviewer := caller,
                      categories := fun j =>
                        { encryptedScore := scores j, encryptedWeight := weights j },
                      encryptedComments := comments, timestamp := ts }
                  else s.feedbacks i },
             s.feedbackCount + 1))
    ∧ (s.isReviewer caller = true ∨
        submitFeedback caller executive scores weights comments ts s =
          Except.error Err.notReviewer)
    ∧ (s.isReviewer caller = false ∨ s.isExecutive executive = true ∨
        submitFeedback caller executive scores weights comments ts s =
          Except.error Err.invalidExecutive) := by
  cases hr : s.isReviewer caller <;> cases he : s.isExecutive executive <;>
    simp [submitFeedback, isOk, hr, he]

/-- Claim C6: for a registered executive `e`, `requestReportDecryption e`
succeeds iff `reports[e].isAggregated` is already true; before aggregation
completes it reverts with the `reportNotReady` precondition error; in every
case the contract state is unchanged. -/
theorem requestReportDecryption_rules (e : Address) (s : State) :
    (isOk (requestReportDecryption e s) = true ↔
       s.isExecutive e = true ∧ (s.reports e).isAggregated = true)
    ∧ runRequestReportDecryption e s = s
    ∧ (s.isExecutive e = false ∨ (s.reports e).isAggregated = true ∨
        requestReportDecryption e s = Except.error Err.reportNotReady) := by
  cases hx : s.isExecutive e <;> cases ha : (s.reports e).isAggregated <;>
    simp [requestReportDecryption, runRequestReportDecryption, isOk, hx, ha]

/-- Claim C9: the decryption flow is read-only with respect to the Report
Store — both `requestReportDecryption` and the `decryptReport` callback
leave the entire contract state (in particular every report field)
unchanged, whether they succeed or revert. -/
theorem decryption_flow_readonly (checkSig : Nat → Nat → Nat → Bool)
    (decode : Nat → Option ((Fin 5 → Nat) × Nat)) (caller : Address)
    (requestId payload proofBytes : Nat) (e : Address) (s : State) :
    runRequestReportDecryption e s = s
    ∧ runDecryptReport checkSig decode caller requestId payload proofBytes s = s := by
  constructor
  · cases hx : s.isExecutive e <;> cases ha : (s.reports e).isAggregated <;>
      simp [runRequestReportDecryption, requestReportDecryption, hx, ha]
  · cases hs : checkSig requestId payload proofBytes
    · simp [runDecryptReport, decryptReport, hs]
    · cases hd : decode payload <;>
        simp [runDecryptReport, decryptReport, hs, hd]

/-- Claim C10: `getEncryptedCategoryScore` is caller-unrestricted (its
result never depends on the caller), is a pure view (it takes the state and
returns only a handle), succeeds exactly when `category < 5`, in which case
it returns the stored encrypted average handle at that index, and reverts
with `invalidCategory` exactly when `category ≥ 5`. -/
theorem getEncryptedCategoryScore_rules (c c2 e : Address) (category : Nat)
    (s : State) :
    getEncryptedCategoryScore c e category s = getEncryptedCategoryScore c2 e category s
    ∧ (isOk (getEncryptedCategoryScore c e category s) = true ↔ category < 5)
    ∧ (5 ≤ category ∨
        getEncryptedCategoryScore c e category s =
          Except.ok ((s.reports e).encryptedAvgScores (catIndex category)))
    ∧ (category < 5 ∨
        getEncryptedCategoryScore c e category s = Except.error Err.invalidCategory) := by
  by_cases h : category < 5
  · have hmin : min category 4 = category := by omega
    simp [getEncryptedCategoryScore, isOk, h, catIndex, hmin]
  · simp [getEncryptedCategoryScore, isOk, h]
    omega

/-- Claim C3 (amended): `requestAggregation e` succeeds iff `e` is a
registered executive, `reports[e].isAggregated` is false and at least
`MIN_REVIEWERS` stored feedback records target `e`; it writes no contract
state whether it succeeds or reverts.  The contract tracks no Pending
request state, so no pending-request gate exists. -/
theorem requestAggregation_rules (e : Address) (s : State) :
    (isOk (requestAggregation e s) = true ↔
       s.isExecutive e = true ∧ (s.reports e).isAggregated = false ∧
         MIN_REVIEWERS ≤ feedbackCountFor e s)
    ∧ runRequestAggregation e s = s := by
  cases hx : s.isExecutive e <;> cases ha : (s.reports e).isAggregated <;>
    by_cases hc : feedbackCountFor e s < MIN_REVIEWERS <;>
      simp [requestAggregation, runRequestAggregation, isOk, hx, ha, hc]
  all_goals omega

/-- Claim C3 counterexample: from `sReady` (threshold met, not aggregated)
a first `requestAggregation` by executive 1 succeeds and leaves the state
unchanged — so while that issued request is still outstanding, a second
`requestAggregation` by the same executive succeeds as well, contradicting
the claimed "no aggregation request for e is still Pending" gate. -/
theorem requestAggregation_second_request_succeeds :
    isOk (requestAggregation 1 sReady) = true
    ∧ afterReq1 = sReady
    ∧ isOk (requestAggregation 1 afterReq1) = true :=
  ⟨rfl, rfl, rfl⟩

/-- Claim C2 (code bug): after executive 1's aggregation request from
`sReady`, an accepted aggregation callback invoked by the gateway address 2
stores the aggregated report under the callback caller (address 2) and
leaves executive 1's report unaggregated — the source sets
`address executive = msg.sender` and never correlates by request id. -/
theorem aggregation_result_misdirected :
    isOk (requestAggregation 1 sReady) = true
    ∧ aggregateFeedback trivialSig demoDecode 2 0 0 0 sReady = Except.ok afterGatewayCb
    ∧ (afterGatewayCb.reports 1).isAggregated = false
    ∧ (afterGatewayCb.reports 2).isAggregated = true :=
  ⟨rfl, rfl, rfl, rfl⟩

/-- Claim C1 counterexample: in `sAgg` the caller's report is already
aggregated (`isAggregated = true`), yet a further accepted aggregation
callback still mutates that report, changing its overall-score handle — the
flag and handles are written without any check that the prior flag was
false. -/
theorem aggregateFeedback_mutates_aggregated_report :
    (sAgg.reports 2).isAggregated = true
    ∧ aggregateFeedback trivialSig demoDecode 2 0 0 0 sAgg = Except.ok afterSecondCb
    ∧ (afterSecondCb.reports 2).isAggregated = true
    ∧ (afterSecondCb.reports 2).encryptedOverallScore ≠
        (sAgg.reports 2).encryptedOverallScore :=
  ⟨rfl, rfl, rfl, by decide⟩

/-- Claim C1 (amended): an accepted aggregation callback (valid proof,
well-formed payload) unconditionally overwrites the caller's report with
the decoded result handles and `isAggregated = true`, regardless of the
flag's prior value — there is no compare-and-set, so a further accepted
callback mutates the report again. -/
theorem aggregateFeedback_unconditional_overwrite
    (checkSig : Nat → Nat → Nat → Bool)
    (decode : Nat → Option ((Fin 5 → Nat) × Nat))
    (caller : Address) (requestId results proofBytes : Nat) (s : State)
    (avgScores : Fin 5 → Nat) (overallScore : Nat)
    (h1 : checkSig requestId results proofBytes = true)
    (h2 : decode results = some (avgScores, overallScore)) :
    aggregateFeedback checkSig decode caller requestId results proofBytes s =
      Except.ok
        { s with reports := fun a =>
            if a = caller then
              { encryptedAvgScores := fun i => asEuint32 (avgScores i),
                encryptedOverallScore := asEuint32 overallScore,
                isAggregated := true }
            else s.reports a } := by
  simp [aggregateFeedback, h1, h2]

/-- Witness for the amended C1 theorem at a state whose report is already
aggregated: the accepted callback still overwrites it. -/
theorem aggregateFeedback_unconditional_overwrite_witness :
    trivialSig 0 0 0 = true ∧ demoDecode 0 = some (demoAvg, 9)
    ∧ aggregateFeedback trivialSig demoDecode 2 0 0 0 sAgg =
        Except.ok
          { sAgg with reports := fun a =>
              if a = 2 then
                { encryptedAvgScores := fun i => asEuint32 (demoAvg i),
                  encryptedOverallScore := asEuint32 9, isAggregated := true }
              else sAgg.reports a } :=
  ⟨rfl, rfl,
   aggregateFeedback_unconditional_overwrite trivialSig demoDecode 2 0 0 0 sAgg
     demoAvg 9 rfl rfl⟩

/-- Claim C4: a callback whose proof fails to verify, or whose payload
fails to decode, reverts in both callback paths and leaves the contract
state entirely unchanged. -/
theorem callback_reject_no_mutation (checkSig : Nat → Nat → Nat → Bool)
    (decode : Nat → Option ((Fin 5 → Nat) × Nat)) (caller : Address)
    (requestId payload proofBytes : Nat) (s : State)
    (h : checkSig requestId payload proofBytes = false ∨ decode payload = none) :
    isOk (aggregateFeedback checkSig decode caller requestId payload proofBytes s) = false
    ∧ runAggregateFeedback checkSig decode caller requestId payload proofBytes s = s
    ∧ isOk (decryptReport checkSig decode caller requestId payload proofBytes s) = false
    ∧ runDecryptReport checkSig decode caller requestId payload proofBytes s = s := by
  rcases h with h | h
  · simp [aggregateFeedback, decryptReport, runAggregateFeedback, runDecryptReport,
      isOk, h]
  · cases hs : checkSig requestId payload proofBytes <;>
      simp [aggregateFeedback, decryptReport, runAggregateFeedback, runDecryptReport,
        isOk, h, hs]

/-- Witness for C4: a callback with a forged proof on `sReady` is rejected
by both paths and mutates nothing. -/
theorem callback_reject_no_mutation_witness :
    (falseSig 0 0 0 = false ∨ demoDecode 0 = none)
    ∧ isOk (aggregateFeedback falseSig demoDecode 2 0 0 0 sReady) = false
    ∧ runAggregateFeedback falseSig demoDecode 2 0 0 0 sReady = sReady
    ∧ isOk (decryptReport falseSig demoDecode 2 0 0 0 sReady) = false
    ∧ runDecryptReport falseSig demoDecode 2 0 0 0 sReady = sReady :=
  ⟨Or.inl rfl,
   callback_reject_no_mutation falseSig demoDecode 2 0 0 0 sReady (Or.inl rfl)⟩

/-- Flattening blocks of constant length 11 multiplies the length by 11. -/
theorem length_flatMap_eleven (l : List Nat) (f : Nat → List Nat)
    (h : ∀ i, (f i).length = 11) : (l.flatMap f).length = 11 * l.length := by
  induction l with
  | nil => simp
  | cons a t ih =>
      simp only [List.flatMap_cons, List.length_append, List.length_cons, h a, ih]
      omega

/-- The id list visited for one executive is strictly increasing. -/
theorem execFeedbackIds_pairwise (e : Address) (s : State) :
    List.Pairwise (· < ·) (execFeedbackIds e s) := by
  have h1 : List.Pairwise (· < ·) (List.range s.feedbackCount) :=
    List.pairwise_lt_range _
  have h2 : List.Pairwise (· < ·)
      ((List.range s.feedbackCount).map (fun k => k + 1)) :=
    h1.map _ (fun a b hab => by omega)
  exact h2.sublist (List.filter_sublist _)

/-- Every id visited for executive `e` stores a record targeting `e`. -/
theorem execFeedbackIds_target (e : Address) (s : State) :
    (execFeedbackIds e s).all (fun i => (s.feedbacks i).executive == e) = true := by
  rw [List.all_eq_true]
  intro i hi
  simp only [execFeedbackIds, List.mem_filter] at hi
  exact hi.2

/-- Claim C7: a successful `requestAggregation` issues exactly the
concatenation, over the caller's record ids in strictly increasing order,
of each record's eleven handles (the five score/weight pairs in category
order then the comment handle); the list has length `11 *` the caller's
record count, and every visited record targets the caller, so no other
executive's handles appear. -/
theorem requestAggregation_handles (e : Address) (s t : State) (cts : List Nat)
    (h : requestAggregation e s = Except.ok (t, cts)) :
    cts = (execFeedbackIds e s).flatMap (fun i => recordHandles (s.feedbacks i))
    ∧ cts.length = 11 * feedbackCountFor e s
    ∧ List.Pairwise (· < ·) (execFeedbackIds e s)
    ∧ (execFeedbackIds e s).all (fun i => (s.feedbacks i).executive == e) = true := by
  have hcts : cts = collectCiphertexts e s := by
    simp only [requestAggregation] at h
    split at h
    · split at h
      · simp at h
      · split at h
        · simp at h
        · simp only [Except.ok.injEq, Prod.mk.injEq] at h
          exact h.2.symm
    · simp at h
  refine ⟨hcts, ?_, execFeedbackIds_pairwise e s, execFeedbackIds_target e s⟩
  rw [hcts]
  exact length_flatMap_eleven _ _ (fun i => rfl)

/-- Witness for C7 at the concrete state `sReady`. -/
theorem requestAggregation_handles_witness :
    requestAggregation 1 sReady = Except.ok (sReady, ctsReady)
    ∧ (ctsReady = (execFeedbackIds 1 sReady).flatMap
          (fun i => recordHandles (sReady.feedbacks i))
       ∧ ctsReady.length = 11 * feedbackCountFor 1 sReady
       ∧ List.Pairwise (· < ·) (execFeedbackIds 1 sReady)
       ∧ (execFeedbackIds 1 sReady).all
           (fun i => (sReady.feedbacks i).executive == 1) = true) :=
  ⟨rfl, requestAggregation_handles 1 sReady sReady ctsReady rfl⟩

/-- A successful `requestAggregation` returns the state unchanged. -/
theorem requestAggregation_preserves_state (c : Address) (s t : State)
    (x : List Nat) (h : requestAggregation c s = Except.ok (t, x)) : t = s := by
  simp only [requestAggregation] at h
  split at h
  · split at h
    · simp at h
    · split at h
      · simp at h
      · simp only [Except.ok.injEq, Prod.mk.injEq] at h
        exact h.1.symm
  · simp at h

/-- A successful `requestReportDecryption` returns the state unchanged. -/
theorem requestReportDecryption_preserves_state (c : Address) (s t : State)
    (x : List Nat) (h : requestReportDecryption c s = Except.ok (t, x)) : t = s := by
  simp only [requestReportDecryption] at h
  split at h
  · split at h
    · simp only [Except.ok.injEq, Prod.mk.injEq] at h
      exact h.1.symm
    · simp at h
  · simp at h

/-- A successful `aggregateFeedback` touches only the `reports` mapping. -/
theorem aggregateFeedback_frame (checkSig : Nat → Nat → Nat → Bool)
    (decode : Nat → Option ((Fin 5 → Nat) × Nat)) (c : Address)
    (rid res prf : Nat) (s t : State)
    (h : aggregateFeedback checkSig decode c rid res prf s = Except.ok t) :
    t.feedbacks = s.feedbacks ∧ t.feedbackCount = s.feedbackCount := by
  simp only [aggregateFeedback] at h
  split at h
  · split at h
    · simp only [Except.ok.injEq] at h
      subst h
      exact ⟨rfl, rfl⟩
    · simp at h
  · simp at h

/-- A successful `decryptReport` returns the state unchanged. -/
theorem decryptReport_preserves_state (checkSig : Nat → Nat → Nat → Bool)
    (decode : Nat → Option ((Fin 5 → Nat) × Nat)) (c : Address)
    (rid clr prf : Nat) (s t : State)
    (h : decryptReport checkSig decode c rid clr prf s = Except.ok t) : t = s := by
  simp only [decryptReport] at h
  split at h
  · split at h
    · simp only [Except.ok.injEq] at h
      exact h.symm
    · simp at h
  · simp at h

/-- A successful `submitFeedback` bumps the count by one and writes only
the fresh slot. -/
theorem submitFeedback_effect (caller executive : Address)
    (sc w : Fin 5 → Handle) (cm ts : Nat) (s t : State) (n : Nat)
    (h : submitFeedback caller executive sc w cm ts s = Except.ok (t, n)) :
    t.feedbackCount = s.feedbackCount + 1
    ∧ ∀ i, i ≠ s.feedbackCount + 1 → t.feedbacks i = s.feedbacks i := by
  simp only [submitFeedback] at h
  split at h
  · split at h
    · simp only [Except.ok.injEq, Prod.mk.injEq] at h
      obtain ⟨ht, _⟩ := h
      subst ht
      exact ⟨rfl, fun i hi => by simp [hi]⟩
    · simp at h
  · simp at h

/-- Claim C8: the feedback log is append-only — any transaction that does
not revert leaves every already-stored feedback record (any id between 1
and the current count) byte-for-byte unchanged and never decreases the
feedback count. -/
theorem feedback_append_only (op : Op) (s t : State)
    (h : applyOp op s = Except.ok t) (i : Nat)
    (_h1 : 1 ≤ i) (h2 : i ≤ s.feedbackCount) :
    t.feedbacks i = s.feedbacks i ∧ s.feedbackCount ≤ t.feedbackCount := by
  cases op with
  | register c =>
      simp only [applyOp, Except.ok.injEq] at h
      subst h; exact ⟨rfl, Nat.le_refl _⟩
  | approve c r =>
      simp only [applyOp, Except.ok.injEq] at h
      subst h; exact ⟨rfl, Nat.le_refl _⟩
  | setPeriod c p =>
      simp only [applyOp, Except.ok.injEq] at h
      subst h; exact ⟨rfl, Nat.le_refl _⟩
  | submit c e sc w cm ts =>
      simp only [applyOp] at h
      cases hs : submitFeedback c e sc w cm ts s with
      | error err => rw [hs] at h; simp at h
      | ok p =>
          rw [hs] at h
          obtain ⟨t2, n⟩ := p
          have h3 : Except.ok t2 = Except.ok t := h
          injection h3 with h4
          subst h4
          obtain ⟨hcount, hother⟩ := submitFeedback_effect c e sc w cm ts s t2 n hs
          exact ⟨hother i (by omega), by omega⟩
  | reqAgg c =>
      simp only [applyOp] at h
      cases hs : requestAggregation c s with
      | error err => rw [hs] at h; simp at h
      | ok p =>
          rw [hs] at h
          obtain ⟨t2, x⟩ := p
          have h3 : Except.ok t2 = Except.ok t := h
          injection h3 with h4
          subst h4
          have ht := requestAggregation_preserves_state c s t2 x hs
          subst ht
          exact ⟨rfl, Nat.le_refl _⟩
  | aggCb cs dec c rid res prf =>
      simp only [applyOp] at h
      obtain ⟨hf, hc⟩ := aggregateFeedback_frame cs dec c rid res prf s t h
      exact ⟨by rw [hf], by rw [hc]⟩
  | reqDec c =>
      simp only [applyOp] at h
      cases hs : requestReportDecryption c s with
      | error err => rw [hs] at h; simp at h
      | ok p =>
          rw [hs] at h
          obtain ⟨t2, x⟩ := p
          have h3 : Except.ok t2 = Except.ok t := h
          injection h3 with h4
          subst h4
          have ht := requestReportDecryption_preserves_state c s t2 x hs
          subst ht
          exact ⟨rfl, Nat.le_refl _⟩
  | decCb cs dec c rid clr prf =>
      simp only [applyOp] at h
      have ht := decryptReport_preserves_state cs dec c rid clr prf s t h
      subst ht
      exact ⟨rfl, Nat.le_refl _⟩
  | getCat c e cat =>
      simp only [applyOp] at h
      cases hs : getEncryptedCategoryScore c e cat s with
      | error err => rw [hs] at h; simp at h
      | ok v =>
          rw [hs] at h
          have h3 : Except.ok s = Except.ok t := h
          injection h3 with h4
          subst h4
          exact ⟨rfl, Nat.le_refl _⟩
  | getOverall c e =>
      simp only [applyOp] at h
      cases hs : getEncryptedOverallScore c e s with
      | error err => rw [hs] at h; simp at h
      | ok v =>
          rw [hs] at h
          have h3 : Except.ok s = Except.ok t := h
          injection h3 with h4
          subst h4
          exact ⟨rfl, Nat.le_refl _⟩

/-- Witness for C8: registering a new executive on `sReady` preserves the
stored record with id 2 and does not decrease the count. -/
theorem feedback_append_only_witness :
    applyOp (Op.register 3) sReady = Except.ok (registerExecutive 3 sReady)
    ∧ 1 ≤ 2 ∧ 2 ≤ sReady.feedbackCount
    ∧ ((registerExecutive 3 sReady).feedbacks 2 = sReady.feedbacks 2
       ∧ sReady.feedbackCount ≤ (registerExecutive 3 sReady).feedbackCount) :=
  ⟨rfl, by decide, by decide,
   feedback_append_only (Op.register 3) sReady (registerExecutive 3 sReady) rfl 2
     (by decide) (by decide)⟩

end ExecutiveFeedbackSystem
